import Mathlib

/-!
Verification of the SIMDJ game-tree engine (`src/3. Desarrollo/SIMDJ/src`).

The Python sources are shallowly embedded below:
* floats that carry probabilities and payoffs become `ℚ` (the code only
  multiplies, divides and compares them);
* raising a typed domain exception becomes returning `Except.error` with a
  constructor of `DomainErr` matching the exception class raised;
* mutation of an object field becomes returning the updated record.

Each embedded definition names the Python function it translates.
-/

namespace GameSim

/-- The typed domain errors of `Domain/Common/exceptions.py`.  Only the
class of the exception matters for the properties below, not its messages. -/
inductive DomainErr where
  | validation
  | complexity
  | treeBuilder
  | historyGeneration
  | probabilityAssignment
  | utilityCalculation
  | equilibriumFinding
  deriving DecidableEq

/-- Equality of embedded results is decidable, so concrete runs of the
embedded functions can be checked by evaluation. -/
instance {ε α : Type _} [DecidableEq ε] [DecidableEq α] : DecidableEq (Except ε α) := fun a b =>
  match a, b with
  | .error e, .error f => decidable_of_iff (e = f) (by simp)
  | .ok x, .ok y => decidable_of_iff (x = y) (by simp)
  | .error _, .ok _ => isFalse (fun h => Except.noConfusion h)
  | .ok _, .error _ => isFalse (fun h => Except.noConfusion h)

/-! ## Game lifecycle (`Domain/Core/game.py`) -/

/-- `GameState` of `game.py` (lines 16-21). -/
inductive GameState where
  | CREATED
  | RUNNING
  | COMPLETED
  | DELETED
  deriving DecidableEq

/-- The `valid_transitions` table of `Game._validate_state_transition`
(`game.py` lines 73-79). -/
def validTransitions : GameState → List GameState
  | .CREATED => [.RUNNING, .DELETED]
  | .RUNNING => [.COMPLETED, .DELETED]
  | .COMPLETED => [.DELETED]
  | .DELETED => []

/-- The lifecycle part of a `Game`: `Game.set_state` first validates the
transition and only then assigns `self.state`, so on an invalid transition
a `ValueError` escapes and the state is untouched. -/
structure GameLifecycle where
  state : GameState
  deriving DecidableEq

/-- `Game.set_state` (`game.py` lines 66-71): raises (here `.error`) on a
transition not listed in `validTransitions`, otherwise stores the new state. -/
def setState (g : GameLifecycle) (newState : GameState) : Except DomainErr GameLifecycle :=
  if newState ∈ validTransitions g.state then
    .ok { g with state := newState }
  else
    .error .validation

/-! ## History probability (`Domain/Core/history.py`) -/

/-- `History.calculate_probability` (`history.py` lines 50-60): with no
actions it stores and returns `0.0`; otherwise it stores and returns
`reduce(mul, probabilities, 1.0)`, the left fold of multiplication over the
actions' probabilities starting from `1.0`. -/
def calculateProbability (probabilities : List ℚ) : ℚ :=
  if probabilities.isEmpty then 0
  else probabilities.foldl (· * ·) 1

/-! ## Probability assigner (`Domain/Simulation/probability_assigner.py`)

The assigner reads each action's effective probability as
`self.probabilities.get(action.action_id, action.probability)`; both
`validate_probabilities` and `normalize_probabilities` only ever consume
that per-action value, so they are embedded as functions on the list of
effective probabilities of the actions they receive. -/

/-- `ProbabilityAssigner.tolerance` (`probability_assigner.py` line 25). -/
def assignerTolerance : ℚ := 1 / 1000

/-- `ProbabilityAssigner.validate_probabilities` (lines 60-92): a scenario
with no outgoing actions returns `True`; otherwise the outgoing
probabilities are summed and, when `|1.0 - total|` exceeds the tolerance, a
`ProbabilityAssignmentError` is raised — the function never returns
`False`. -/
def validateProbabilities (outgoing : List ℚ) : Except DomainErr Bool :=
  if outgoing.isEmpty then
    .ok true
  else
    let total := outgoing.sum
    let diff := |1 - total|
    if diff ≤ assignerTolerance then
      .ok true
    else
      .error .probabilityAssignment

/-- `ProbabilityAssigner.normalize_probabilities` (lines 94-126): sums the
probabilities, raises when the total is `≤ 0` (before touching any action),
and otherwise replaces every probability by its quotient by the total. -/
def normalizeProbabilities (probabilities : List ℚ) : Except DomainErr (List ℚ) :=
  let total := probabilities.sum
  if total ≤ 0 then
    .error .probabilityAssignment
  else
    .ok (probabilities.map (· / total))

/-! ## Tree builder (`Domain/Simulation/tree_builder.py`)

`create_scenarios` builds the tree level by level: level 0 is the single
root, and each scenario of level `d-1` receives exactly `strategies`
children at level `d` (children of earlier parents first, matching the two
nested loops).  A scenario is therefore identified here by its *path*: the
list of branch indices (`0 ≤ k < strategies`) chosen from the root, which
determines its Python object uniquely; `depth = path.length`.  Scenario and
action ids, `X`/`Z` labels and the per-subtree action numbering do not
affect any property below and are not carried, except for the 52-letter
overflow check which is embedded faithfully. -/

/-- One construction level of `create_scenarios` (`tree_builder.py` lines
66-93): every parent of the previous level gets `strategies` children, in
parent order then branch order (the order `next_level.sort` preserves,
since ids are assigned in exactly this order). -/
def nextLevel (strategies : Nat) (lvl : List (List Nat)) : List (List Nat) :=
  lvl.flatMap (fun parent => (List.range strategies).map (fun k => parent ++ [k]))

/-- The paths of the scenarios at depth `d`. -/
def levelPaths (strategies : Nat) : Nat → List (List Nat)
  | 0 => [[]]
  | d + 1 => nextLevel strategies (levelPaths strategies d)

/-- A scenario as produced by `create_scenarios`: `final` is true exactly
for the nodes created at `depth == rounds` inside the loop (the root keeps
type `"normal"` even when `rounds = 0`, since it is created before the
loop, `tree_builder.py` lines 54-59). -/
structure ScenarioM where
  path : List Nat
  depth : Nat
  final : Bool
  deriving DecidableEq

/-- `TreeBuilder.create_scenarios` (lines 49-95): the concatenation of the
levels `0, 1, …, rounds`, in creation order. -/
def createScenarios (rounds strategies : Nat) : List ScenarioM :=
  (List.range (rounds + 1)).flatMap (fun d =>
    (levelPaths strategies d).map (fun p =>
      { path := p, depth := d, final := decide (d = rounds ∧ 1 ≤ d) }))

/-- An action as produced by `create_actions`: one edge per (parent, child)
pair, identified by the two paths. -/
structure ActionM where
  origin : List Nat
  dest : List Nat
  deriving DecidableEq

/-- The edges `create_actions` creates (`tree_builder.py` lines 104-182):
exactly one action from every scenario of each level `d < rounds` to each
of its `strategies` children.  (Python creates them in depth-first order to
number the labels; only the set of edges and the per-origin order matter
here, and both agree with this level-wise enumeration.) -/
def createActionsList (rounds strategies : Nat) : List ActionM :=
  (List.range rounds).flatMap (fun d =>
    (levelPaths strategies d).flatMap (fun p =>
      (List.range strategies).map (fun k => { origin := p, dest := p ++ [k] })))

/-- `TreeBuilder._get_subtree_letter` (lines 184-205): the 26 lowercase
plus 26 uppercase letters; an index past the 52nd raises a
`ValidationError`. -/
def getSubtreeLetter (index : Nat) : Except DomainErr Char :=
  let letters := "abcdefghijklmnopqrstuvwxyzABCDEFGHIJKLMNOPQRSTUVWXYZ".toList
  match letters.get? index with
  | some c => .ok c
  | none => .error .validation

/-- `TreeBuilder.create_actions` (lines 104-153): each root child starts a
subtree letter (`_get_subtree_letter subtree_index`), so the 53rd root
child aborts the whole action creation; with `rounds = 0` the root has no
children and no letter is requested.  On success the created edges are
`createActionsList`. -/
def createActions (rounds strategies : Nat) : Except DomainErr (List ActionM) :=
  match (List.range (if 1 ≤ rounds then levelPaths strategies 1 else []).length).mapM
      getSubtreeLetter with
  | .error e => .error e
  | .ok _ => .ok (createActionsList rounds strategies)

/-- `TreeBuilder.calculate_total_scenarios` (lines 34-38).  Python `//` is
floor division, hence `Int.fdiv`. -/
def totalScenariosFormula (rounds strategies : Nat) : Int :=
  if strategies = 1 then 1
  else Int.fdiv ((strategies : Int) ^ rounds - 1) ((strategies : Int) - 1)

/-- `TreeBuilder.calculate_total_strategies` (lines 40-44); the numerator
`S ** E - S ** 2` is negative for `E ≤ 2`, and Python `//` floors, hence
`Int.fdiv`. -/
def totalStrategiesFormula (rounds strategies : Nat) : Int :=
  if strategies = 1 then 1
  else Int.fdiv ((strategies : Int) ^ rounds - (strategies : Int) ^ 2)
        ((strategies : Int) - 1) + 2 * (strategies : Int)

/-- `TreeBuilder.calculate_total_histories` (lines 46-47). -/
def totalHistoriesFormula (rounds strategies : Nat) : Nat :=
  strategies ^ rounds

/-- `DomainValidator.validate_game_complexity` (`domain_validator.py`
lines 103-122), whose `_calculate_game_metrics` computes the same two
closed-form expressions as `calculate_total_scenarios` /
`calculate_total_strategies`; it raises a `ComplexityError` when the
scenario metric reaches 30000 or the strategy metric exceeds 30000. -/
def validateGameComplexity (rounds strategies : Nat) : Except DomainErr Unit :=
  if 30000 ≤ totalScenariosFormula rounds strategies ∨
     30000 < totalStrategiesFormula rounds strategies then
    .error .complexity
  else
    .ok ()

/-- The fields of a built `Game` that the verified properties consume
(`game.py` lines 24-46, as populated by `build_tree`). -/
structure GameM where
  players : List Nat
  roundNumbers : List Nat
  scenarios : List ScenarioM
  actions : List ActionM
  numRounds : Nat
  numStrategies : Nat
  totalScenarios : Nat
  totalActions : Nat
  totalHistories : Nat
  deriving DecidableEq

/-- `TreeBuilder.build_tree` (lines 207-257): validates complexity, creates
the game with its players and rounds, then the scenarios, then the actions;
any error is re-raised as a `TreeBuilderError`.  The scenarios, actions and
root are attached to the game only after action creation succeeded, exactly
as in the source (lines 230-236). -/
def buildTree (players rounds strategies : Nat) : Except DomainErr GameM :=
  match validateGameComplexity rounds strategies with
  | .error _ => .error .treeBuilder
  | .ok _ =>
    let scens := createScenarios rounds strategies
    match createActions rounds strategies with
    | .error _ => .error .treeBuilder
    | .ok acts =>
      .ok { players := (List.range players).map (· + 1)
            roundNumbers := (List.range rounds).map (· + 1)
            scenarios := scens
            actions := acts
            numRounds := rounds
            numStrategies := strategies
            totalScenarios := scens.length
            totalActions := acts.length
            totalHistories := totalHistoriesFormula rounds strategies }

/-! ## History generator (`Domain/Simulation/history_generator.py`)

`generate_histories` walks `tree.adjacency`, the dict `create_actions`
filled with `adjacency[origin.scenario_id] = [its outgoing actions]`; for a
built tree this maps a scenario of depth `< rounds` to the actions towards
its `strategies` children (already in ascending `action_id` order, which is
child order) and holds no entry for the terminal level.  `adjacencyFun` is
that dict as a function of the scenario's path. -/

/-- The adjacency of the built tree, as read through
`adjacency.get(current.scenario_id, [])` (`history_generator.py` line
109). -/
def adjacencyFun (rounds strategies : Nat) (path : List Nat) : List ActionM :=
  if path.length < rounds then
    (List.range strategies).map (fun k => { origin := path, dest := path ++ [k] })
  else []

/-- `HistoryGenerator._dfs` (lines 103-162): at a scenario with no outgoing
actions the accumulated `path_buffer` is emitted as a history; otherwise it
recurses into every destination with the action appended to the buffer.
The Python recursion is bounded by the tree depth; `fuel` makes that bound
explicit (every use below supplies provably sufficient fuel, so the `0`
branch is never taken).  The cycle guard of the source is keyed by the
destination id together with the whole traversed action-id tuple, and those
keys are pairwise distinct on an acyclic tree, so the guard never prunes
here and is not modelled. -/
def dfsM (rounds strategies : Nat) : Nat → List Nat → List ActionM → List (List ActionM)
  | 0, _, _ => []
  | fuel + 1, path, buffer =>
    let outgoing := adjacencyFun rounds strategies path
    if outgoing.isEmpty then [buffer]
    else outgoing.flatMap (fun a => dfsM rounds strategies fuel a.dest (buffer ++ [a]))

/-- `HistoryGenerator.generate_histories` (lines 32-93): rejects a game
without scenarios or without actions (`validate_tree_structure` and the
explicit empty-actions check), then runs the depth-first traversal from the
root.  Each emitted action list becomes a `History` with a 1-based
sequential id; only the lists themselves matter below. -/
def generateHistories (g : GameM) : Except DomainErr (List (List ActionM)) :=
  if g.scenarios.isEmpty then .error .historyGeneration
  else if g.actions.isEmpty then .error .historyGeneration
  else .ok (dfsM g.numRounds g.numStrategies (g.numRounds + 1) [] [])

/-! ## Utility calculator (`Domain/Simulation/utility_calculator.py`)

`History` and `Payoff` objects enter this stage already built; the fields
the calculator and the equilibrium finder read are embedded below.
`total_probability` is an `Option` because the source explicitly tests
`payoff.history.total_probability is None`. -/

/-- The fields of `Domain/Core/history.py` read by the calculator and the
finder: the id, the ids of the constituent actions (in order), and the
computed total probability. -/
structure HistoryM where
  historyId : Nat
  actionIds : List Nat
  totalProbability : Option ℚ
  deriving DecidableEq

/-- The fields of `Domain/Core/payoff.py` read by the calculator and the
finder.  `history` is an `Option` mirroring `Payoff.history:
Optional[History]`. -/
structure PayoffM where
  payoffId : Nat
  playerId : Nat
  history : Option HistoryM
  value : ℚ
  expectedUtility : ℚ
  deriving DecidableEq

/-- `UtilityCalculator.validate_data_consistency` (lines 29-62) together
with the `DomainValidator.validate_utility_calculation_data` it calls
first (`domain_validator.py` lines 171-206): empty histories, empty
payoffs, a payoff without a history, a payoff whose history id is not
among the given histories, or a referenced history whose
`total_probability` is `None`, each raise a `UtilityCalculationError`.
(The `hasattr(…, 'total_probability')` checks always pass for real
`History` objects and have no counterpart here; a payoff's player is a
non-optional field both in the embedding and, after the `not
payoff.player` check, in the source.) -/
def validateDataConsistency (histories : List HistoryM) (payoffs : List PayoffM) :
    Except DomainErr Unit :=
  if histories.isEmpty then .error .utilityCalculation
  else if payoffs.isEmpty then .error .utilityCalculation
  else if payoffs.any (fun pf => pf.history.isNone) then .error .utilityCalculation
  else if payoffs.any (fun pf =>
      !((histories.map (·.historyId)).contains ((pf.history.map (·.historyId)).getD 0)))
    then .error .utilityCalculation
  else if payoffs.any (fun pf => (pf.history.map (·.totalProbability)).getD none = none)
    then .error .utilityCalculation
  else .ok ()

/-- The ordered player list of `calculate_utilities` (lines 75-82): the
distinct `player_id`s occurring in the payoffs, sorted ascending. -/
def playerIdsOf (payoffs : List PayoffM) : List Nat :=
  ((payoffs.map (·.playerId)).dedup).insertionSort (· ≤ ·)

/-- The `payoff_map` lookup of `calculate_utilities` (lines 92-105): the
dict maps `(player_id, history_id)` to the value of the *last* payoff
inserted for that key, and `.get(…, 0.0)` falls back to `0.0` when no
payoff carries the pair. -/
def payoffMapGet (payoffs : List PayoffM) (playerId historyId : Nat) : ℚ :=
  match (payoffs.filter (fun pf =>
      pf.playerId == playerId && pf.history.map (·.historyId) == some historyId)).getLast? with
  | some pf => pf.value
  | none => 0

/-- `UtilityCalculator.calculate_utilities` (lines 64-118): after
validation it builds the dense matrix
`utility[h][p] = payoff_map.get((player p, history h), 0.0) × (history h
probability or 0.0)` over the histories in order and the players sorted by
id, then sets every payoff's `expected_utility` to `value × (its history's
probability or 0.0)`.  The returned pair is (matrix, updated payoffs). -/
def calculateUtilities (histories : List HistoryM) (payoffs : List PayoffM) :
    Except DomainErr (List (List ℚ) × List PayoffM) :=
  match validateDataConsistency histories payoffs with
  | .error e => .error e
  | .ok _ =>
    let players := playerIdsOf payoffs
    let matrix := histories.map (fun h =>
      let probability := h.totalProbability.getD 0
      players.map (fun pid => payoffMapGet payoffs pid h.historyId * probability))
    let updated := payoffs.map (fun pf =>
      { pf with expectedUtility :=
          pf.value * ((pf.history.map (·.totalProbability)).getD none).getD 0 })
    .ok (matrix, updated)

/-! ## Equilibrium finder (`Domain/Simulation/equilibrium_finder.py`)

Only the continuation-utility computation (steps used by claim C1) is
embedded: `_map_actions_to_histories`, `_build_history_utilities` and
`_calculate_continuation_utility`. -/

/-- `EquilibriumFinder._map_actions_to_histories` (lines 318-325), read at
one action id: the histories whose action list contains the action, in
history order. -/
def historiesContaining (histories : List HistoryM) (actionId : Nat) : List HistoryM :=
  histories.filter (fun h => h.actionIds.contains actionId)

/-- `EquilibriumFinder._build_history_utilities` (lines 327-345), read at
one `(history_id, player_id)` key: the table starts at `0.0` for every
(history, player) pair and each payoff then overwrites the entry of its
`(history_id, player_id)` with its **raw value** (`payoff.value`, not the
expected utility), so a lookup returns the value of the last payoff
carrying the pair, and `0.0` when there is none. -/
def historyUtilityGet (payoffs : List PayoffM) (historyId playerId : Nat) : ℚ :=
  match (payoffs.filter (fun pf =>
      pf.history.map (·.historyId) == some historyId && pf.playerId == playerId)).getLast? with
  | some pf => pf.value
  | none => 0

/-- `EquilibriumFinder._calculate_continuation_utility` (lines 347-362):
the arithmetic mean, over the histories containing the action, of the
`history_utilities` entry of the active player, and `0.0` when no history
contains the action. -/
def calculateContinuationUtility (histories : List HistoryM) (payoffs : List PayoffM)
    (actionId playerId : Nat) : ℚ :=
  let hs := historiesContaining histories actionId
  if hs.isEmpty then 0
  else (hs.map (fun h => historyUtilityGet payoffs h.historyId playerId)).sum / hs.length

/-- The continuation utility as the SPEC words it (spec §4.5 step 3 and
claim C1): the mean over the same histories of the active player's
*expected utility*, i.e. the payoff value multiplied by the history's
total probability.  This definition follows the specification text, to be
compared against `calculateContinuationUtility`, which follows the code. -/
def continuationUtilitySpec (histories : List HistoryM) (payoffs : List PayoffM)
    (actionId playerId : Nat) : ℚ :=
  let hs := historiesContaining histories actionId
  if hs.isEmpty then 0
  else (hs.map (fun h =>
    historyUtilityGet payoffs h.historyId playerId * h.totalProbability.getD 0)).sum / hs.length

/-! ## Claim C9: the Game state machine -/

/-- Claim C9: the Game state machine admits exactly the forward transitions
CREATED→RUNNING, RUNNING→COMPLETED, and X→DELETED for every non-DELETED
state X; every other transition requested through `set_state` (including
any transition out of DELETED and any backward transition) raises an error
and leaves the state unchanged (the embedding returns `.error` without
producing an updated game). -/
theorem setState_transitions (c n : GameState) :
    setState ⟨c⟩ n =
      if (c = .CREATED ∧ n = .RUNNING) ∨ (c = .RUNNING ∧ n = .COMPLETED) ∨
          (n = .DELETED ∧ c ≠ .DELETED) then
        .ok ⟨n⟩
      else
        .error .validation := by
  cases c <;> cases n <;> decide

/-! ## Claim C10: total probability of a History -/

/-- Claim C10: for a History whose action list is empty,
`calculate_probability` sets and returns `total_probability = 0.0` (not
`1.0`, the empty product); for a non-empty action list it sets
`total_probability` to the product of the actions' probabilities. -/
theorem calculateProbability_empty_zero_else_prod :
    calculateProbability [] = 0 ∧
    ∀ probabilities : List ℚ, probabilities ≠ [] →
      calculateProbability probabilities = probabilities.prod := by
  refine ⟨rfl, fun probabilities hne => ?_⟩
  unfold calculateProbability
  rw [if_neg (by simpa using hne), List.prod_eq_foldl]

/-- Witness for C10 at the spec's own example `[0.5, 0.4]` (here as
rationals): the probability is the product `1/5`. -/
theorem calculateProbability_witness :
    calculateProbability [(1 : ℚ) / 2, 2 / 5] = 1 / 5 := by
  rw [calculateProbability_empty_zero_else_prod.2 [(1 : ℚ) / 2, 2 / 5] (by simp)]
  norm_num

/-! ## Claim C5: probability validation -/

/-- Counterexample to claim C5 as stated: for a scenario whose single
outgoing action has probability `1/2` (deviation `1/2 > 0.001`),
`validate_probabilities` does **not** return false — it raises a
`ProbabilityAssignmentError`. -/
theorem validateProbabilities_raises_counterexample :
    validateProbabilities [(1 : ℚ) / 2] = .error .probabilityAssignment := by
  unfold validateProbabilities
  norm_num [assignerTolerance, abs_of_pos]

/-- Claim C5 (amended): `validate_probabilities` returns true for every
scenario with no outgoing actions and whenever the sum of the outgoing
probabilities is within the 0.001 tolerance of 1.0; when the sum deviates
by more than the tolerance it raises a probability-assignment error rather
than returning false — in fact it never returns false at all. -/
theorem validateProbabilities_spec (outgoing : List ℚ) :
    (validateProbabilities outgoing = .ok true ↔
      outgoing = [] ∨ |1 - outgoing.sum| ≤ assignerTolerance) ∧
    (¬ (outgoing = [] ∨ |1 - outgoing.sum| ≤ assignerTolerance) →
      validateProbabilities outgoing = .error .probabilityAssignment) ∧
    ∀ b : Bool, validateProbabilities outgoing = .ok b → b = true := by
  by_cases hemp : outgoing = []
  · subst hemp
    refine ⟨by simp [validateProbabilities], fun hcon => absurd (Or.inl rfl) hcon, ?_⟩
    intro b hb
    have : true = b := by
      simpa [validateProbabilities] using hb
    exact this.symm
  · have hne : outgoing.isEmpty = false := by simpa using hemp
    by_cases htol : |1 - outgoing.sum| ≤ assignerTolerance
    · have hval : validateProbabilities outgoing = .ok true := by
        unfold validateProbabilities
        simp only [hne, Bool.false_eq_true, if_false, if_pos htol]
      refine ⟨by simp [hval, htol], fun hcon => absurd (Or.inr htol) hcon, ?_⟩
      intro b hb
      rw [hval] at hb
      injection hb with h
      exact h.symm
    · have hval : validateProbabilities outgoing = .error .probabilityAssignment := by
        unfold validateProbabilities
        simp only [hne, Bool.false_eq_true, if_false, if_neg htol]
      refine ⟨?_, fun _ => hval, ?_⟩
      · rw [hval]
        simp [hemp, htol]
      · intro b hb
        rw [hval] at hb
        exact Except.noConfusion hb

/-- Witness for C5 (amended) at a valid one-action scenario. -/
theorem validateProbabilities_witness :
    validateProbabilities [(1 : ℚ)] = .ok true :=
  (validateProbabilities_spec [(1 : ℚ)]).1.mpr (Or.inr (by norm_num [assignerTolerance]))

/-! ## Claim C7: normalization is idempotent -/

/-- Dividing every list element by a constant divides the sum. -/
theorem listSumMapDiv (l : List ℚ) (t : ℚ) : (l.map (· / t)).sum = l.sum / t := by
  induction l with
  | nil => simp
  | cons x xs ih => simp [ih, add_div]

/-- Claim C7: `normalize_probabilities` is idempotent — for an action list
whose probabilities already sum to 1 it changes no probability (exactly, in
rational arithmetic), so applying it twice gives the same probabilities as
applying it once; and for a list whose probability sum is ≤ 0 it raises a
probability-assignment error, leaving every probability untouched (the
error is raised before the assignment loop, and the embedding returns no
updated list on error). -/
theorem normalizeProbabilities_idempotent (probabilities : List ℚ) :
    (probabilities.sum = 1 → normalizeProbabilities probabilities = .ok probabilities) ∧
    (∀ normalized, normalizeProbabilities probabilities = .ok normalized →
      normalizeProbabilities normalized = .ok normalized) ∧
    (probabilities.sum ≤ 0 →
      normalizeProbabilities probabilities = .error .probabilityAssignment) := by
  have hnorm : ∀ l : List ℚ, l.sum = 1 → normalizeProbabilities l = .ok l := by
    intro l hsum
    unfold normalizeProbabilities
    rw [hsum]
    norm_num
  refine ⟨hnorm probabilities, fun normalized hok => ?_, fun hnp => ?_⟩
  · unfold normalizeProbabilities at hok
    by_cases hle : probabilities.sum ≤ 0
    · simp [hle] at hok
    · simp only [hle, if_false, Except.ok.injEq] at hok
      refine hnorm normalized ?_
      rw [← hok, listSumMapDiv]
      exact div_self (by linarith)
  · unfold normalizeProbabilities
    simp [hnp]

/-- Witness for C7 at the already-normalized distribution `[1/2, 1/2]`. -/
theorem normalizeProbabilities_witness :
    normalizeProbabilities [(1 : ℚ) / 2, 1 / 2] = .ok [(1 : ℚ) / 2, 1 / 2] :=
  (normalizeProbabilities_idempotent [(1 : ℚ) / 2, 1 / 2]).1 (by norm_num)

/-! ## Claim C2: the closed-form count formulas -/

/-- Claim C2 is violated by the code: at rounds = 2, strategies = 2 the
closed-form `calculate_total_scenarios` returns 3 and
`calculate_total_strategies` returns 4, while `build_tree(1, 2, 2)`
produces a Game with 7 scenarios and 6 actions.  (The scenario formula
`(S^R − 1)/(S − 1)` sums the levels `0 … R−1` only, i.e. it counts just
the decision scenarios; the total including the `S^R` terminal level is
`(S^(R+1) − 1)/(S − 1)`.) -/
theorem countFormulas_disagree_with_buildTree :
    totalScenariosFormula 2 2 = 3 ∧ totalStrategiesFormula 2 2 = 4 ∧
    (buildTree 1 2 2).toOption.map (fun g => g.scenarios.length) = some 7 ∧
    (buildTree 1 2 2).toOption.map (fun g => g.actions.length) = some 6 := by
  refine ⟨by decide, by decide, by decide, by decide⟩

/-! ## Claim C6: build-tree failure behaviour -/

/-- Counterexample to claim C6 as stated: `build_tree(1, 0, 1)` — a
non-positive `rounds` — raises no error at all; it succeeds and returns a
degenerate Game with a single root scenario and no actions. -/
theorem buildTree_nonpositive_counterexample :
    (buildTree 1 0 1).toOption.map (fun g => (g.scenarios.length, g.actions.length))
      = some (1, 0) := by
  decide

/-! ## Claim C3: terminal-scenario and history counts -/

/-- If `f` sends every element of `l` to a list of length `c`, flat-mapping
multiplies the length by `c`. -/
theorem lengthFlatMapConst {α β : Type _} (l : List α) (f : α → List β) (c : Nat)
    (hf : ∀ a ∈ l, (f a).length = c) : (l.flatMap f).length = l.length * c := by
  induction l with
  | nil => simp
  | cons x xs ih =>
    rw [List.flatMap_cons, List.length_append, hf x (List.mem_cons_self x xs),
      ih (fun a ha => hf a (List.mem_cons_of_mem x ha)), List.length_cons]
    ring

/-- Level `d` of the built tree holds `strategies ^ d` scenarios. -/
theorem levelPaths_length (strategies d : Nat) :
    (levelPaths strategies d).length = strategies ^ d := by
  induction d with
  | zero => rfl
  | succ d ih =>
    show (nextLevel strategies (levelPaths strategies d)).length = _
    unfold nextLevel
    rw [lengthFlatMapConst _ _ strategies (fun a _ => by simp), ih, pow_succ]

/-- Filtering commutes with flat-mapping. -/
theorem filterFlatMap {α β : Type _} (l : List α) (f : α → List β) (p : β → Bool) :
    (l.flatMap f).filter p = l.flatMap (fun a => (f a).filter p) := by
  induction l with
  | nil => rfl
  | cons x xs ih => simp only [List.flatMap_cons, List.filter_append, ih]

/-- `create_scenarios` marks exactly the `strategies ^ rounds` scenarios of
the deepest level as final (for `rounds ≥ 1`). -/
theorem createScenarios_terminal_count (rounds strategies : Nat) (hR : 1 ≤ rounds) :
    ((createScenarios rounds strategies).filter (fun s => s.final)).length
      = strategies ^ rounds := by
  unfold createScenarios
  rw [filterFlatMap, List.length_flatMap]
  have hcongr : ∀ d ∈ List.range (rounds + 1),
      (List.length ∘ fun d => ((levelPaths strategies d).map (fun p =>
          ({ path := p, depth := d, final := decide (d = rounds ∧ 1 ≤ d) } : ScenarioM))).filter
        (fun s => s.final)) d
      = if d = rounds then strategies ^ rounds else 0 := by
    intro d _
    rw [Function.comp_apply]
    by_cases hd : d = rounds
    · subst hd
      have hall : ∀ s ∈ (levelPaths strategies d).map (fun p =>
          ({ path := p, depth := d, final := decide (d = d ∧ 1 ≤ d) } : ScenarioM)),
          (fun s : ScenarioM => s.final) s = true := by
        intro s hs
        rw [List.mem_map] at hs
        obtain ⟨p, _, rfl⟩ := hs
        simpa using hR
      rw [List.filter_eq_self.mpr hall, List.length_map, levelPaths_length, if_pos rfl]
    · have hnone : ∀ s ∈ (levelPaths strategies d).map (fun p =>
          ({ path := p, depth := d, final := decide (d = rounds ∧ 1 ≤ d) } : ScenarioM)),
          ¬ (fun s : ScenarioM => s.final) s = true := by
        intro s hs
        rw [List.mem_map] at hs
        obtain ⟨p, _, rfl⟩ := hs
        simp [hd]
      rw [List.filter_eq_nil_iff.mpr hnone, List.length_nil, if_neg hd]
  rw [List.map_congr_left hcongr, List.range_succ, List.map_append, List.sum_append]
  have hzero : ((List.range rounds).map (fun d => if d = rounds then strategies ^ rounds else 0)).sum
      = 0 := by
    apply List.sum_eq_zero
    intro x hx
    rw [List.mem_map] at hx
    obtain ⟨d, hd, rfl⟩ := hx
    rw [List.mem_range] at hd
    exact if_neg (by omega)
  rw [hzero]
  simp

/-- The depth-first traversal of the built tree: from a node at depth
`path.length ≤ rounds`, with enough fuel, it emits `strategies ^ (rounds −
path.length)` histories, each extending the buffer by `rounds −
path.length` actions. -/
theorem dfsM_count (rounds strategies : Nat) (hS : 1 ≤ strategies) :
    ∀ (fuel : Nat) (path : List Nat) (buffer : List ActionM),
      path.length ≤ rounds → rounds - path.length < fuel →
      (dfsM rounds strategies fuel path buffer).length
          = strategies ^ (rounds - path.length) ∧
      ∀ hb ∈ dfsM rounds strategies fuel path buffer,
        hb.length = buffer.length + (rounds - path.length) := by
  intro fuel
  induction fuel with
  | zero => intro path buffer hle hf; omega
  | succ fuel ih =>
    intro path buffer hle hf
    by_cases hdec : path.length < rounds
    · have houtgoing : adjacencyFun rounds strategies path
          = (List.range strategies).map
              (fun k => ({ origin := path, dest := path ++ [k] } : ActionM)) := by
        unfold adjacencyFun
        rw [if_pos hdec]
      have hne : ((List.range strategies).map
          (fun k => ({ origin := path, dest := path ++ [k] } : ActionM))).isEmpty = false := by
        rw [List.isEmpty_eq_false_iff_exists_mem]
        exact ⟨{ origin := path, dest := path ++ [0] },
          List.mem_map_of_mem _ (List.mem_range.mpr (by omega))⟩
      have hstep : dfsM rounds strategies (fuel + 1) path buffer
          = ((List.range strategies).map
              (fun k => ({ origin := path, dest := path ++ [k] } : ActionM))).flatMap
            (fun a => dfsM rounds strategies fuel a.dest (buffer ++ [a])) := by
        rw [dfsM, houtgoing, hne]
        simp
      have hrec : ∀ a ∈ (List.range strategies).map
          (fun k => ({ origin := path, dest := path ++ [k] } : ActionM)),
          (dfsM rounds strategies fuel a.dest (buffer ++ [a])).length
              = strategies ^ (rounds - (path.length + 1)) ∧
            ∀ hb ∈ dfsM rounds strategies fuel a.dest (buffer ++ [a]),
              hb.length = (buffer ++ [a]).length + (rounds - (path.length + 1)) := by
        intro a ha
        rw [List.mem_map] at ha
        obtain ⟨k, _, rfl⟩ := ha
        have h1 : (path ++ [k]).length ≤ rounds := by
          simp only [List.length_append, List.length_singleton]
          omega
        have h2 : rounds - (path ++ [k]).length < fuel := by
          simp only [List.length_append, List.length_singleton]
          omega
        have h3 := ih (path ++ [k])
          (buffer ++ [{ origin := path, dest := path ++ [k] }]) h1 h2
        have hlen : (path ++ [k]).length = path.length + 1 := by simp
        rw [hlen] at h3
        exact h3
      constructor
      · rw [hstep, lengthFlatMapConst _ _ (strategies ^ (rounds - (path.length + 1)))
          (fun a ha => (hrec a ha).1), List.length_map, List.length_range]
        have : rounds - path.length = (rounds - (path.length + 1)) + 1 := by omega
        rw [this, pow_succ]
        ring
      · intro hb hmem
        rw [hstep, List.mem_flatMap] at hmem
        obtain ⟨a, ha, hmem⟩ := hmem
        have := (hrec a ha).2 hb hmem
        rw [this]
        simp only [List.length_append, List.length_cons, List.length_nil]
        omega
    · have heq : rounds - path.length = 0 := by omega
      have houtgoing : adjacencyFun rounds strategies path = [] := by
        unfold adjacencyFun
        rw [if_neg hdec]
      rw [dfsM, houtgoing]
      simp [heq]

/-- On success, `create_actions` returns exactly the level-wise edge
list. -/
theorem createActions_ok (rounds strategies : Nat) (acts : List ActionM)
    (hok : createActions rounds strategies = .ok acts) :
    acts = createActionsList rounds strategies := by
  unfold createActions at hok
  cases hm : (List.range (if 1 ≤ rounds then levelPaths strategies 1 else []).length).mapM
      getSubtreeLetter with
  | error e => rw [hm] at hok; exact Except.noConfusion hok
  | ok cs =>
    rw [hm] at hok
    injection hok with h
    exact h.symm

/-- Claim C3: for every P ≥ 1, R ≥ 1, S ≥ 1 for which the build succeeds,
the Game returned by `build_tree(P, R, S)` contains exactly `S^R` terminal
scenarios, and `generate_histories` on that Game returns exactly `S^R`
Histories, each consisting of exactly `R` actions. -/
theorem buildTree_terminals_and_histories (players rounds strategies : Nat) (g : GameM)
    (hR : 1 ≤ rounds) (hS : 1 ≤ strategies)
    (hok : buildTree players rounds strategies = .ok g) :
    (g.scenarios.filter (fun s => s.final)).length = strategies ^ rounds ∧
    ∃ hs, generateHistories g = .ok hs ∧ hs.length = strategies ^ rounds ∧
      ∀ hb ∈ hs, hb.length = rounds := by
  unfold buildTree at hok
  cases hvc : validateGameComplexity rounds strategies with
  | error e => rw [hvc] at hok; exact Except.noConfusion hok
  | ok u =>
    rw [hvc] at hok
    cases hca : createActions rounds strategies with
    | error e => rw [hca] at hok; exact Except.noConfusion hok
    | ok acts =>
      rw [hca] at hok
      injection hok with h
      subst h
      have hacts : acts = createActionsList rounds strategies :=
        createActions_ok rounds strategies acts hca
      constructor
      · simpa using createScenarios_terminal_count rounds strategies hR
      · have hscene : (createScenarios rounds strategies).isEmpty = false := by
          rw [List.isEmpty_eq_false_iff_exists_mem]
          refine ⟨{ path := [], depth := 0, final := decide (0 = rounds ∧ 1 ≤ 0) }, ?_⟩
          unfold createScenarios
          rw [List.mem_flatMap]
          exact ⟨0, List.mem_range.mpr (by omega), List.mem_map_of_mem _ (by simp [levelPaths])⟩
        have hactsne : (createActionsList rounds strategies).isEmpty = false := by
          rw [List.isEmpty_eq_false_iff_exists_mem]
          refine ⟨{ origin := [], dest := [0] }, ?_⟩
          unfold createActionsList
          rw [List.mem_flatMap]
          refine ⟨0, List.mem_range.mpr (by omega), ?_⟩
          rw [List.mem_flatMap]
          refine ⟨[], by simp [levelPaths], ?_⟩
          exact List.mem_map_of_mem _ (List.mem_range.mpr (by omega))
        refine ⟨dfsM rounds strategies (rounds + 1) [] [], ?_, ?_, ?_⟩
        · unfold generateHistories
          simp only [hacts, hscene, hactsne, Bool.false_eq_true, if_false]
        · have := (dfsM_count rounds strategies hS (rounds + 1) [] []
            (by simp) (by simp)).1
          simpa using this
        · intro hb hmem
          have := (dfsM_count rounds strategies hS (rounds + 1) [] []
            (by simp) (by simp)).2 hb hmem
          simpa using this

/-- Witness for C3 at P = 2, R = 2, S = 2: the built game has `2^2 = 4`
terminal scenarios. -/
theorem buildTree_terminals_witness :
    (((buildTree 2 2 2).toOption.getD
        ⟨[], [], [], [], 0, 0, 0, 0, 0⟩).scenarios.filter (fun s => s.final)).length
      = 2 ^ 2 :=
  (buildTree_terminals_and_histories 2 2 2
    ((buildTree 2 2 2).toOption.getD ⟨[], [], [], [], 0, 0, 0, 0, 0⟩)
    (by norm_num) (by norm_num) (by decide)).1

/-- `_get_subtree_letter` fails on every index past the 52 letters. -/
theorem getSubtreeLetter_overflow (index : Nat) (h : 52 ≤ index) :
    getSubtreeLetter index = .error .validation := by
  have hnone :
      ("abcdefghijklmnopqrstuvwxyzABCDEFGHIJKLMNOPQRSTUVWXYZ".toList).get? index = none := by
    rw [List.get?_eq_none]
    have hlen : ("abcdefghijklmnopqrstuvwxyzABCDEFGHIJKLMNOPQRSTUVWXYZ".toList).length = 52 := by
      decide
    omega
  simp only [getSubtreeLetter, hnone]

/-- Mapping `_get_subtree_letter` over a list that holds any index ≥ 52
fails (with the `ValidationError` of the overflowing index — every error
the letter lookup can raise). -/
theorem mapM_getSubtreeLetter_error (l : List Nat) (hex : ∃ i ∈ l, 52 ≤ i) :
    l.mapM getSubtreeLetter = .error .validation := by
  induction l with
  | nil =>
    obtain ⟨i, hi, _⟩ := hex
    simp at hi
  | cons x xs ih =>
    obtain ⟨i, hi, h52⟩ := hex
    cases hx : getSubtreeLetter x with
    | error e =>
      have he : e = .validation := by
        unfold getSubtreeLetter at hx
        cases hget : ("abcdefghijklmnopqrstuvwxyzABCDEFGHIJKLMNOPQRSTUVWXYZ".toList).get? x with
        | none => simp only [hget] at hx; injection hx with h; exact h.symm
        | some c =>
          simp only [hget] at hx
          exact Except.noConfusion hx
      subst he
      rw [List.mapM_cons, hx]
      rfl
    | ok c =>
      have hixs : i ∈ xs := by
        rcases List.mem_cons.mp hi with h | h
        · subst h
          rw [getSubtreeLetter_overflow i h52] at hx
          exact Except.noConfusion hx
        · exact h
      rw [List.mapM_cons, hx, ih ⟨i, hixs, h52⟩]
      rfl

/-- Claim C6 (amended): `build_tree` performs no positivity validation of
its parameters: whenever the complexity ceiling passes, a non-positive
`rounds` builds a degenerate single-root Game without error, `strategies =
0` always builds without error, and the `players` count never influences
success or failure.  Every configuration whose subtree count exceeds the
52-letter labeling scheme (`rounds ≥ 1` and `strategies ≥ 53`) and every
configuration that trips the complexity guard raises a tree-construction
error; on such a failure the error is raised before the scenarios, actions
or root are attached to the Game (the embedding returns no Game at all),
so no partial tree is left on it.  `strategies = 52` is still inside the
letter scheme. -/
theorem buildTree_failure_modes :
    (∀ players rounds strategies : Nat, 1 ≤ rounds → 53 ≤ strategies →
      buildTree players rounds strategies = .error .treeBuilder) ∧
    (∀ players rounds strategies : Nat, ∀ e : DomainErr,
      validateGameComplexity rounds strategies = .error e →
      buildTree players rounds strategies = .error .treeBuilder) ∧
    (∀ players strategies : Nat, validateGameComplexity 0 strategies = .ok () →
      (buildTree players 0 strategies).toOption.isSome = true) ∧
    (∀ players rounds : Nat, (buildTree players rounds 0).toOption.isSome = true) ∧
    (∀ players players' rounds strategies : Nat,
      (buildTree players rounds strategies).toOption.isSome
        = (buildTree players' rounds strategies).toOption.isSome) ∧
    (∀ players : Nat, (buildTree players 1 52).toOption.isSome = true) := by
  refine ⟨?_, ?_, ?_, ?_, ?_, fun players => rfl⟩
  · intro players rounds strategies hR hS
    unfold buildTree
    cases hvc : validateGameComplexity rounds strategies with
    | error e => rfl
    | ok u =>
      have hlen : (levelPaths strategies 1).length = strategies := by
        rw [levelPaths_length, pow_one]
      have hca : createActions rounds strategies = .error .validation := by
        unfold createActions
        rw [if_pos hR, hlen,
          mapM_getSubtreeLetter_error (List.range strategies)
            ⟨52, List.mem_range.mpr (by omega), le_refl 52⟩]
      rw [hca]
  · intro players rounds strategies e hguard
    unfold buildTree
    rw [hguard]
  · intro players strategies hguard
    unfold buildTree
    rw [hguard]
    rfl
  · intro players rounds
    have hvc : validateGameComplexity rounds 0 = .ok () := by
      cases rounds with
      | zero => decide
      | succ n =>
        have h1 : totalScenariosFormula (n + 1) 0 = 1 := by
          unfold totalScenariosFormula
          rw [if_neg (by omega)]
          simp only [Nat.cast_zero]
          rw [zero_pow (show n + 1 ≠ 0 by omega)]
          decide
        have h2 : totalStrategiesFormula (n + 1) 0 = 0 := by
          unfold totalStrategiesFormula
          rw [if_neg (by omega)]
          simp only [Nat.cast_zero]
          rw [zero_pow (show n + 1 ≠ 0 by omega)]
          decide
        unfold validateGameComplexity
        rw [h1, h2]
        norm_num
    unfold buildTree
    rw [hvc]
    have hca : createActions rounds 0 = .ok (createActionsList rounds 0) := by
      unfold createActions
      cases rounds with
      | zero => rfl
      | succ n =>
        rw [if_pos (by omega)]
        rfl
    rw [hca]
    rfl
  · intro players players' rounds strategies
    unfold buildTree
    cases validateGameComplexity rounds strategies with
    | error e => rfl
    | ok u =>
      cases createActions rounds strategies with
      | error e => rfl
      | ok acts => rfl

/-- Witness for C6 (amended): the letter scheme overflows at `build_tree(1,
1, 53)`, the complexity guard trips at `build_tree(1, 20, 2)`, and the
non-positive `build_tree(1, 0, 1)` succeeds. -/
theorem buildTree_failure_modes_witness :
    buildTree 1 1 53 = .error .treeBuilder ∧
    buildTree 1 20 2 = .error .treeBuilder ∧
    (buildTree 1 0 1).toOption.isSome = true :=
  ⟨buildTree_failure_modes.1 1 1 53 (by norm_num) (by norm_num),
   buildTree_failure_modes.2.1 1 20 2 .complexity (by decide),
   buildTree_failure_modes.2.2.1 1 1 (by decide)⟩

/-! ## Claim C4: utility-calculation validation -/

/-- Counterexample to claim C4 as stated: with 2 histories and 2 players
but only 3 payoffs (the (player 2, history 2) payoff is missing),
`calculate_utilities` raises nothing — the payoff-count/«histories ×
players» consistency is never checked — and the missing pair's matrix cell
is silently written as the default `0.0` (bottom-right cell below). -/
theorem calculateUtilities_missing_pair_counterexample :
    (calculateUtilities
        [⟨1, [1], some 1⟩, ⟨2, [2], some 1⟩]
        [⟨1, 1, some ⟨1, [1], some 1⟩, 5, 0⟩,
         ⟨2, 2, some ⟨1, [1], some 1⟩, 7, 0⟩,
         ⟨3, 1, some ⟨2, [2], some 1⟩, 3, 0⟩]).toOption.map (fun r => r.1)
      = some [[5, 7], [3, 0]] := by
  have hval : validateDataConsistency
      [⟨1, [1], some 1⟩, ⟨2, [2], some 1⟩]
      [⟨1, 1, some ⟨1, [1], some 1⟩, 5, 0⟩,
       ⟨2, 2, some ⟨1, [1], some 1⟩, 7, 0⟩,
       ⟨3, 1, some ⟨2, [2], some 1⟩, 3, 0⟩] = .ok () := by
    simp [validateDataConsistency]
  have hplayers : playerIdsOf
      [⟨1, 1, some ⟨1, [1], some 1⟩, 5, 0⟩,
       ⟨2, 2, some ⟨1, [1], some 1⟩, 7, 0⟩,
       ⟨3, 1, some ⟨2, [2], some 1⟩, 3, 0⟩] = [1, 2] := rfl
  have h11 : payoffMapGet
      [⟨1, 1, some ⟨1, [1], some 1⟩, 5, 0⟩,
       ⟨2, 2, some ⟨1, [1], some 1⟩, 7, 0⟩,
       ⟨3, 1, some ⟨2, [2], some 1⟩, 3, 0⟩] 1 1 = 5 := rfl
  have h21 : payoffMapGet
      [⟨1, 1, some ⟨1, [1], some 1⟩, 5, 0⟩,
       ⟨2, 2, some ⟨1, [1], some 1⟩, 7, 0⟩,
       ⟨3, 1, some ⟨2, [2], some 1⟩, 3, 0⟩] 2 1 = 7 := rfl
  have h12 : payoffMapGet
      [⟨1, 1, some ⟨1, [1], some 1⟩, 5, 0⟩,
       ⟨2, 2, some ⟨1, [1], some 1⟩, 7, 0⟩,
       ⟨3, 1, some ⟨2, [2], some 1⟩, 3, 0⟩] 1 2 = 3 := rfl
  have h22 : payoffMapGet
      [⟨1, 1, some ⟨1, [1], some 1⟩, 5, 0⟩,
       ⟨2, 2, some ⟨1, [1], some 1⟩, 7, 0⟩,
       ⟨3, 1, some ⟨2, [2], some 1⟩, 3, 0⟩] 2 2 = 0 := rfl
  unfold calculateUtilities
  rw [hval]
  simp only [hplayers, List.map_cons, List.map_nil, Option.getD_some, Except.toOption,
    Option.map_some]
  rw [h11, h21, h12, h22]
  norm_num

/-- Claim C4 (amended): before computing any matrix cell,
`calculate_utilities` checks only that the history and payoff lists are
non-empty and that every payoff carries a player and an existing history
with a computed probability; it does **not** compare the payoff count
against histories × players, and whenever those checks pass the
computation succeeds, silently substituting the default `0.0` for any
missing (player, history) payoff. -/
theorem validateDataConsistency_spec (histories : List HistoryM) (payoffs : List PayoffM) :
    (validateDataConsistency histories payoffs = .ok () ↔
      histories ≠ [] ∧ payoffs ≠ [] ∧
      ∀ pf ∈ payoffs, ∃ h, pf.history = some h ∧
        h.historyId ∈ histories.map (fun x => x.historyId) ∧ h.totalProbability ≠ none) ∧
    (validateDataConsistency histories payoffs = .ok () →
      ∃ matrix updated, calculateUtilities histories payoffs = .ok (matrix, updated)) := by
  constructor
  · unfold validateDataConsistency
    split_ifs with h1 h2 h3 h4 h5
    · simp [List.isEmpty_iff.mp h1]
    · simp [List.isEmpty_iff.mp h2]
    · simp only [reduceCtorEq, false_iff, not_and]
      intro _ _ hall
      obtain ⟨pf, hmem, hnone⟩ := List.any_eq_true.mp h3
      obtain ⟨h, hh, _, _⟩ := hall pf hmem
      rw [hh] at hnone
      simp at hnone
    · simp only [reduceCtorEq, false_iff, not_and]
      intro _ _ hall
      obtain ⟨pf, hmem, hmiss⟩ := List.any_eq_true.mp h4
      obtain ⟨h, hh, hid, _⟩ := hall pf hmem
      rw [hh] at hmiss
      simp [List.mem_map] at hmiss hid
      obtain ⟨x, hx, hxid⟩ := hid
      exact (hmiss x hx) hxid
    · simp only [reduceCtorEq, false_iff, not_and]
      intro _ _ hall
      obtain ⟨pf, hmem, hprob⟩ := List.any_eq_true.mp h5
      obtain ⟨h, hh, _, hne⟩ := hall pf hmem
      rw [hh] at hprob
      simp at hprob
      exact hne hprob
    · simp only [true_iff, Except.ok.injEq]
      constructor
      · exact fun hc => by simp [hc] at h1
      constructor
      · exact fun hc => by simp [hc] at h2
      · intro pf hmem
        have hsome : pf.history.isNone = false := by
          by_contra hc
          exact h3 (List.any_eq_true.mpr ⟨pf, hmem, by simpa using hc⟩)
        obtain ⟨h, hh⟩ : ∃ h, pf.history = some h := by
          cases hhist : pf.history with
          | none => rw [hhist] at hsome; simp at hsome
          | some h => exact ⟨h, rfl⟩
        refine ⟨h, hh, ?_, ?_⟩
        · by_contra hc
          refine h4 (List.any_eq_true.mpr ⟨pf, hmem, ?_⟩)
          rw [hh]
          simp only [Option.map_some, Option.getD_some, Bool.not_eq_true']
          simpa using hc
        · by_contra hc
          refine h5 (List.any_eq_true.mpr ⟨pf, hmem, ?_⟩)
          rw [hh]
          simpa using hc
  · intro hval
    unfold calculateUtilities
    rw [hval]
    exact ⟨_, _, rfl⟩

/-- Witness for C4 (amended) at a consistent one-history, one-payoff
input: validation succeeds. -/
theorem validateDataConsistency_witness :
    validateDataConsistency [⟨1, [], some 1⟩] [⟨1, 1, some ⟨1, [], some 1⟩, 5, 0⟩]
      = .ok () := by
  refine (validateDataConsistency_spec [⟨1, [], some 1⟩]
    [⟨1, 1, some ⟨1, [], some 1⟩, 5, 0⟩]).1.mpr ⟨by simp, by simp, ?_⟩
  intro pf hmem
  rw [List.mem_singleton] at hmem
  subst hmem
  exact ⟨⟨1, [], some 1⟩, rfl, by simp, by simp⟩

/-! ## Claim C1: the continuation utility -/

/-- Counterexample to claim C1 as stated: one history containing the
action, with total probability `1/2` and payoff value `2` for the active
player.  The claim's value — the mean expected utility `2 × 1/2 = 1` — is
computed by `continuationUtilitySpec`, but the code's
`_calculate_continuation_utility` averages the **raw** payoff values and
returns `2`. -/
theorem continuationUtility_counterexample :
    calculateContinuationUtility [⟨1, [1], some (1 / 2)⟩]
        [⟨1, 1, some ⟨1, [1], some (1 / 2)⟩, 2, 0⟩] 1 1 = 2 ∧
    continuationUtilitySpec [⟨1, [1], some (1 / 2)⟩]
        [⟨1, 1, some ⟨1, [1], some (1 / 2)⟩, 2, 0⟩] 1 1 = 1 ∧
    calculateContinuationUtility [⟨1, [1], some (1 / 2)⟩]
        [⟨1, 1, some ⟨1, [1], some (1 / 2)⟩, 2, 0⟩] 1 1
      ≠ continuationUtilitySpec [⟨1, [1], some (1 / 2)⟩]
        [⟨1, 1, some ⟨1, [1], some (1 / 2)⟩, 2, 0⟩] 1 1 := by
  have hhist : historiesContaining [⟨1, [1], some (1 / 2)⟩] 1
      = [⟨1, [1], some (1 / 2)⟩] := rfl
  have hutil : historyUtilityGet [⟨1, 1, some ⟨1, [1], some (1 / 2)⟩, 2, 0⟩] 1 1 = 2 := rfl
  have hcode : calculateContinuationUtility [⟨1, [1], some (1 / 2)⟩]
      [⟨1, 1, some ⟨1, [1], some (1 / 2)⟩, 2, 0⟩] 1 1 = 2 := by
    unfold calculateContinuationUtility
    rw [hhist]
    simp only [List.isEmpty_cons, List.map_cons, List.map_nil]
    rw [hutil]
    norm_num
  have hspec : continuationUtilitySpec [⟨1, [1], some (1 / 2)⟩]
      [⟨1, 1, some ⟨1, [1], some (1 / 2)⟩, 2, 0⟩] 1 1 = 1 := by
    unfold continuationUtilitySpec
    rw [hhist]
    simp only [List.isEmpty_cons, List.map_cons, List.map_nil]
    rw [hutil]
    norm_num
  refine ⟨hcode, hspec, ?_⟩
  rw [hcode, hspec]
  norm_num

/-- Claim C1 (amended): the continuation utility computed for an action is
the arithmetic mean, over all Histories whose action sequence contains
that action, of the active player's **raw payoff value** in those
histories (not the expected utility — the history's total probability is
not multiplied in); if no history contains the action, the continuation
utility is 0.  The hypothesis singles out, for every such history, the
unique payoff the table lookup resolves to. -/
theorem continuationUtility_mean_of_raw_values (histories : List HistoryM)
    (payoffs : List PayoffM) (actionId playerId : Nat) (v : HistoryM → ℚ)
    (hv : ∀ h ∈ historiesContaining histories actionId,
      (payoffs.filter (fun pf =>
        pf.history.map (fun x => x.historyId) == some h.historyId
          && pf.playerId == playerId)).map (fun pf => pf.value) = [v h]) :
    calculateContinuationUtility histories payoffs actionId playerId =
      if (historiesContaining histories actionId).isEmpty then 0
      else ((historiesContaining histories actionId).map v).sum
            / (historiesContaining histories actionId).length := by
  unfold calculateContinuationUtility
  by_cases hemp : (historiesContaining histories actionId).isEmpty
  · rw [if_pos hemp, if_pos hemp]
  · rw [if_neg hemp, if_neg hemp]
    have hmap : (historiesContaining histories actionId).map
        (fun h => historyUtilityGet payoffs h.historyId playerId)
        = (historiesContaining histories actionId).map v := by
      apply List.map_congr_left
      intro h hh
      have hfil := hv h hh
      unfold historyUtilityGet
      cases hq : payoffs.filter (fun pf =>
          pf.history.map (fun x => x.historyId) == some h.historyId
            && pf.playerId == playerId) with
      | nil => rw [hq] at hfil; simp at hfil
      | cons pf rest =>
        rw [hq, List.map_cons] at hfil
        injection hfil with h1 h2
        have hrest : rest = [] := by
          cases rest with
          | nil => rfl
          | cons r rs => simp at h2
        subst hrest
        simp [h1]
    rw [hmap]

/-- Witness for C1 (amended): on the counterexample data the mean of raw
values is `2`. -/
theorem continuationUtility_mean_witness :
    calculateContinuationUtility [⟨1, [1], some (1 / 2)⟩]
        [⟨1, 1, some ⟨1, [1], some (1 / 2)⟩, 2, 0⟩] 1 1 = 2 := by
  have h := continuationUtility_mean_of_raw_values [⟨1, [1], some (1 / 2)⟩]
    [⟨1, 1, some ⟨1, [1], some (1 / 2)⟩, 2, 0⟩] 1 1 (fun _ => 2)
    (by
      intro h hh
      have : h = ⟨1, [1], some (1 / 2)⟩ := by simpa [historiesContaining] using hh
      subst this
      rfl)
  rw [h]
  norm_num [historiesContaining]

/-! ## Claim C8: the utility matrix invariant -/

/-- Claim C8: the matrix returned by `calculate_utilities(histories,
payoffs)` satisfies `utility[h][p] = payoff(p,h).value ×
history[h].total_probability` for every history index `h` and player index
`p` (players ordered by ascending `player_id`, as `playerIdsOf`
computes), its shape is exactly (number of histories) × (number of
players), and each Payoff's own `expected_utility` field is updated to the
same product.  The filter hypothesis singles out the unique payoff of the
(player, history) pair, which the dict lookup then resolves to. -/
theorem calculateUtilities_matrix_spec (histories : List HistoryM) (payoffs : List PayoffM)
    (matrix : List (List ℚ)) (updated : List PayoffM)
    (hok : calculateUtilities histories payoffs = .ok (matrix, updated)) :
    matrix.length = histories.length ∧
    (∀ row ∈ matrix, row.length = (playerIdsOf payoffs).length) ∧
    (∀ (hi pi : Nat) (h : HistoryM) (pid : Nat) (pf : PayoffM),
      histories[hi]? = some h →
      (playerIdsOf payoffs)[pi]? = some pid →
      payoffs.filter (fun q =>
        q.playerId == pid && q.history.map (fun x => x.historyId) == some h.historyId)
        = [pf] →
      (matrix.getD hi []).getD pi 0 = pf.value * h.totalProbability.getD 0) ∧
    updated = payoffs.map (fun pf =>
      { pf with expectedUtility :=
          pf.value * ((pf.history.map (fun x => x.totalProbability)).getD none).getD 0 }) := by
  unfold calculateUtilities at hok
  cases hval : validateDataConsistency histories payoffs with
  | error e => rw [hval] at hok; exact Except.noConfusion hok
  | ok u =>
    rw [hval] at hok
    injection hok with hpair
    injection hpair with hm hu
    subst hm
    subst hu
    refine ⟨by simp, ?_, ?_, rfl⟩
    · intro row hrow
      rw [List.mem_map] at hrow
      obtain ⟨h, _, rfl⟩ := hrow
      simp
    · intro hi pi h pid pf hh hp hfil
      show ((histories.map (fun hx => (playerIdsOf payoffs).map
          (fun px => payoffMapGet payoffs px hx.historyId
            * hx.totalProbability.getD 0))).getD hi []).getD pi 0
          = pf.value * h.totalProbability.getD 0
      have houter : (histories.map (fun hx => (playerIdsOf payoffs).map
          (fun px => payoffMapGet payoffs px hx.historyId
            * hx.totalProbability.getD 0))).getD hi []
          = (playerIdsOf payoffs).map
            (fun px => payoffMapGet payoffs px h.historyId
              * h.totalProbability.getD 0) := by
        rw [List.getD_eq_getElem?_getD, List.getElem?_map, hh]
        simp
      rw [houter]
      have hinner : ((playerIdsOf payoffs).map
          (fun px => payoffMapGet payoffs px h.historyId
            * h.totalProbability.getD 0)).getD pi 0
          = payoffMapGet payoffs pid h.historyId * h.totalProbability.getD 0 := by
        rw [List.getD_eq_getElem?_getD, List.getElem?_map, hp]
        simp
      rw [hinner]
      unfold payoffMapGet
      rw [hfil]
      simp

/-- Witness for C8 at one history of probability `1/2` and one payoff of
value 6: the single matrix cell is `6 × 1/2 = 3`. -/
theorem calculateUtilities_matrix_witness :
    ([[(3 : ℚ)]].getD 0 []).getD 0 0 = 6 * ((1 : ℚ) / 2) := by
  have hval : validateDataConsistency [⟨1, [], some (1 / 2)⟩]
      [⟨1, 1, some ⟨1, [], some (1 / 2)⟩, 6, 0⟩] = .ok () := by
    simp [validateDataConsistency]
  have hplayers : playerIdsOf [⟨1, 1, some ⟨1, [], some (1 / 2)⟩, 6, 0⟩] = [1] := rfl
  have hmg : payoffMapGet [⟨1, 1, some ⟨1, [], some (1 / 2)⟩, 6, 0⟩] 1 1 = 6 := rfl
  have hok : calculateUtilities [⟨1, [], some (1 / 2)⟩]
      [⟨1, 1, some ⟨1, [], some (1 / 2)⟩, 6, 0⟩]
      = .ok ([[3]], [⟨1, 1, some ⟨1, [], some (1 / 2)⟩, 6, 3⟩]) := by
    unfold calculateUtilities
    rw [hval]
    simp only [hplayers, List.map_cons, List.map_nil, Option.getD_some]
    rw [hmg]
    norm_num
  have h := (calculateUtilities_matrix_spec [⟨1, [], some (1 / 2)⟩]
    [⟨1, 1, some ⟨1, [], some (1 / 2)⟩, 6, 0⟩] [[3]]
    [⟨1, 1, some ⟨1, [], some (1 / 2)⟩, 6, 3⟩] hok).2.2.1 0 0
    ⟨1, [], some (1 / 2)⟩ 1 ⟨1, 1, some ⟨1, [], some (1 / 2)⟩, 6, 0⟩ rfl rfl rfl
  simpa using h

end GameSim
